import Mathlib

/-!
Shallow embedding of DTMerger (src/DTMerger.py): a page-merging tool that
combines pages from multi-frame TIFF files and DocuWorks compound documents
into a single multi-page TIFF.  File paths, frames, document handles and the
filesystem are modelled explicitly; the external libraries (PIL, xdwlib) are
modelled as oracle functions supplied in an environment record.
-/

/-- A filesystem path, split into stem and extension (`Path.suffix`). -/
structure SrcPath where
  stem : String
  ext : String
deriving DecidableEq

/-- Model of `path.suffix` from the source. -/
def SrcPath.suffix (p : SrcPath) : String := p.ext

/-- Model of `path.name` from the source. -/
def SrcPath.name (p : SrcPath) : String := p.stem ++ p.ext

/-- Source constant `TIFF_EXTENSIONS`, the set {".tif", ".tiff"}. -/
def TIFF_EXTENSIONS : List String := [".tif", ".tiff"]

/-- Source constant `DOCUWORKS_EXTENSIONS`, the set {".xdw", ".xbd", ".xct"}. -/
def DOCUWORKS_EXTENSIONS : List String := [".xdw", ".xbd", ".xct"]

/-- Source constant `SUPPORTED_EXTENSIONS`, the union of the two sets above. -/
def SUPPORTED_EXTENSIONS : List String := TIFF_EXTENSIONS ++ DOCUWORKS_EXTENSIONS

/-- The `source_type` field of `PageEntry`: the string "tiff" or "docuworks". -/
inductive SourceType where
  | tiff
  | docuworks
deriving DecidableEq

/-- The `PageEntry` dataclass. -/
structure PageEntry where
  source_path : SrcPath
  page_index : Nat
  source_type : SourceType
deriving DecidableEq

/-- A decoded in-memory raster page (a PIL `Image`): its pixel-format tag
(`img.mode`, e.g. "1" for bi-level, "L", "RGB") and an abstract pixel
payload. -/
structure Frame where
  mode : String
  data : Nat
deriving DecidableEq

/-- Model of `MainWindow.ensure_group4_mode`: if `img.mode == "1"` return the frame
unchanged, otherwise call `img.convert("1")`.  The conversion performed by
PIL is external to the program, so it is passed in as a function. -/
def ensure_group4_mode (convert : Frame → Frame) (img : Frame) : Frame :=
  if img.mode = "1" then img else convert img

/-- The state of the page list (`QListWidget`): the ordered catalog entries
and the current row, which is `-1` when no row is selected. -/
structure PageListState where
  items : List PageEntry
  currentRow : Int
deriving DecidableEq

/-- Model of `MainWindow.move_selected_up`: no-op when `currentRow <= 0`; otherwise
`takeItem(row)` then `insertItem(row - 1, item)` then
`setCurrentRow(row - 1)`. -/
def move_selected_up (s : PageListState) : PageListState :=
  if s.currentRow ≤ 0 then s
  else
    let row := s.currentRow.toNat
    match s.items[row]? with
    | none => s
    | some item =>
      { items := (s.items.eraseIdx row).insertIdx (row - 1) item,
        currentRow := s.currentRow - 1 }

/-- Model of `MainWindow.move_selected_down`: no-op when `row < 0` or
`row >= count - 1`; otherwise `takeItem(row)` then
`insertItem(row + 1, item)` then `setCurrentRow(row + 1)`. -/
def move_selected_down (s : PageListState) : PageListState :=
  if s.currentRow < 0 ∨ s.currentRow ≥ (s.items.length : Int) - 1 then s
  else
    let row := s.currentRow.toNat
    match s.items[row]? with
    | none => s
    | some item =>
      { items := (s.items.eraseIdx row).insertIdx (row + 1) item,
        currentRow := s.currentRow + 1 }

/-- Removing the element at `i + 1` and re-inserting it at `i` produces the
adjacent swap of positions `i` and `i + 1`, in take/drop normal form. -/
theorem eraseIdx_insertIdx_swap_up (l : List PageEntry) (i : Nat) (x y : PageEntry)
    (h1 : l[i]? = some y) (h2 : l[i + 1]? = some x) :
    (l.eraseIdx (i + 1)).insertIdx i x = l.take i ++ x :: y :: l.drop (i + 2) := by
  induction l generalizing i with
  | nil => simp at h1
  | cons a t ih =>
    cases i with
    | zero =>
      simp only [List.getElem?_cons_zero, Option.some.injEq] at h1
      cases t with
      | nil => simp at h2
      | cons b t' =>
        simp only [List.getElem?_cons_succ, List.getElem?_cons_zero, Option.some.injEq] at h2
        subst h1; subst h2
        simp [List.eraseIdx_cons_succ, List.eraseIdx_cons_zero, List.insertIdx_zero]
    | succ j =>
      simp only [List.getElem?_cons_succ] at h1 h2
      have := ih j h1 h2
      simp [List.eraseIdx_cons_succ, List.insertIdx_succ_cons, this]

/-- Removing the element at `i` and re-inserting it at `i + 1` also produces
the adjacent swap of positions `i` and `i + 1`. -/
theorem eraseIdx_insertIdx_swap_down (l : List PageEntry) (i : Nat) (x y : PageEntry)
    (h1 : l[i]? = some y) (h2 : l[i + 1]? = some x) :
    (l.eraseIdx i).insertIdx (i + 1) y = l.take i ++ x :: y :: l.drop (i + 2) := by
  induction l generalizing i with
  | nil => simp at h1
  | cons a t ih =>
    cases i with
    | zero =>
      simp only [List.getElem?_cons_zero, Option.some.injEq] at h1
      cases t with
      | nil => simp at h2
      | cons b t' =>
        simp only [List.getElem?_cons_succ, List.getElem?_cons_zero, Option.some.injEq] at h2
        subst h1; subst h2
        simp [List.eraseIdx_cons_zero, List.insertIdx_succ_cons, List.insertIdx_zero]
    | succ j =>
      simp only [List.getElem?_cons_succ] at h1 h2
      have := ih j h1 h2
      simp [List.eraseIdx_cons_succ, List.insertIdx_succ_cons, this]

/-- Length of the swap normal form. -/
theorem swapForm_length (l : List PageEntry) (i : Nat) (x y : PageEntry)
    (h : i + 1 < l.length) :
    (l.take i ++ x :: y :: l.drop (i + 2)).length = l.length := by
  simp only [List.length_append, List.length_take, List.length_cons, List.length_drop]
  omega

/-- Entries strictly before position `i` are untouched by the swap form. -/
theorem swapForm_getElem_lt (l : List PageEntry) (i : Nat) (x y : PageEntry)
    (h : i + 1 < l.length) (j : Nat) (hj : j < i) :
    (l.take i ++ x :: y :: l.drop (i + 2))[j]? = l[j]? := by
  rw [List.getElem?_append]
  have hlen : (l.take i).length = i := by
    simp only [List.length_take]; omega
  rw [hlen]
  simp only [hj, if_pos]
  rw [List.getElem?_take]
  simp [hj]

/-- The element at position `i` of the swap form is `x`. -/
theorem swapForm_getElem_at (l : List PageEntry) (i : Nat) (x y : PageEntry)
    (h : i + 1 < l.length) :
    (l.take i ++ x :: y :: l.drop (i + 2))[i]? = some x := by
  have hlen : (l.take i).length = i := by
    simp only [List.length_take]; omega
  rw [List.getElem?_append_right (by omega), hlen]
  simp

/-- The element at position `i + 1` of the swap form is `y`. -/
theorem swapForm_getElem_succ (l : List PageEntry) (i : Nat) (x y : PageEntry)
    (h : i + 1 < l.length) :
    (l.take i ++ x :: y :: l.drop (i + 2))[i + 1]? = some y := by
  have hlen : (l.take i).length = i := by
    simp only [List.length_take]; omega
  rw [List.getElem?_append_right (by omega), hlen]
  have : i + 1 - i = 1 := by omega
  rw [this]
  simp

/-- Entries at positions `≥ i + 2` are untouched by the swap form. -/
theorem swapForm_getElem_ge (l : List PageEntry) (i : Nat) (x y : PageEntry)
    (h : i + 1 < l.length) (j : Nat) (hj : i + 2 ≤ j) :
    (l.take i ++ x :: y :: l.drop (i + 2))[j]? = l[j]? := by
  have hlen : (l.take i).length = i := by
    simp only [List.length_take]; omega
  rw [List.getElem?_append_right (by omega), hlen]
  have h2 : j - i = (j - i - 2) + 1 + 1 := by omega
  rw [h2, List.getElem?_cons_succ, List.getElem?_cons_succ, List.getElem?_drop]
  congr 1
  omega

/-- The conclusion of claim C5, as a predicate on the list state: moving up
at row 0 is a no-op, moving down at the last row is a no-op, and any other
move swaps exactly the selected entry with its neighbour in the move
direction, leaves every other entry unchanged, and keeps the selection on
the moved entry. -/
def MoveSwapSpec (s : PageListState) : Prop :=
  (s.currentRow = 0 → move_selected_up s = s) ∧
  (s.currentRow = (s.items.length : Int) - 1 → move_selected_down s = s) ∧
  (0 < s.currentRow →
    (move_selected_up s).items.length = s.items.length ∧
    (move_selected_up s).items[s.currentRow.toNat - 1]? = s.items[s.currentRow.toNat]? ∧
    (move_selected_up s).items[s.currentRow.toNat]? = s.items[s.currentRow.toNat - 1]? ∧
    (∀ j : Nat, j ≠ s.currentRow.toNat - 1 → j ≠ s.currentRow.toNat →
      (move_selected_up s).items[j]? = s.items[j]?) ∧
    (move_selected_up s).currentRow = s.currentRow - 1 ∧
    (move_selected_up s).items[(move_selected_up s).currentRow.toNat]? =
      s.items[s.currentRow.toNat]?) ∧
  (s.currentRow < (s.items.length : Int) - 1 →
    (move_selected_down s).items.length = s.items.length ∧
    (move_selected_down s).items[s.currentRow.toNat]? = s.items[s.currentRow.toNat + 1]? ∧
    (move_selected_down s).items[s.currentRow.toNat + 1]? = s.items[s.currentRow.toNat]? ∧
    (∀ j : Nat, j ≠ s.currentRow.toNat → j ≠ s.currentRow.toNat + 1 →
      (move_selected_down s).items[j]? = s.items[j]?) ∧
    (move_selected_down s).currentRow = s.currentRow + 1 ∧
    (move_selected_down s).items[(move_selected_down s).currentRow.toNat]? =
      s.items[s.currentRow.toNat]?)

/-- Unfolding of `move_selected_up` away from the boundary. -/
theorem move_up_eq (s : PageListState) (i : Nat) (hrow : s.currentRow = ((i + 1 : Nat) : Int))
    (x : PageEntry) (hx : s.items[i + 1]? = some x) :
    move_selected_up s =
      { items := (s.items.eraseIdx (i + 1)).insertIdx i x,
        currentRow := s.currentRow - 1 } := by
  unfold move_selected_up
  rw [if_neg (by omega)]
  have ht : s.currentRow.toNat = i + 1 := by omega
  simp only [ht, hx, Nat.add_sub_cancel]

/-- Unfolding of `move_selected_down` away from the boundary. -/
theorem move_down_eq (s : PageListState) (i : Nat) (hrow : s.currentRow = ((i : Nat) : Int))
    (hlen : i + 1 < s.items.length) (y : PageEntry) (hy : s.items[i]? = some y) :
    move_selected_down s =
      { items := (s.items.eraseIdx i).insertIdx (i + 1) y,
        currentRow := s.currentRow + 1 } := by
  unfold move_selected_down
  rw [if_neg (by omega)]
  have ht : s.currentRow.toNat = i := by omega
  simp only [ht, hy]

/-- C5: with a valid selected row, a move at the boundary is a no-op and any
other move swaps exactly the selected entry with its neighbour, leaving all
other entries unchanged and keeping the selection on the moved entry. -/
theorem c5_move_swaps_adjacent (s : PageListState)
    (hge : 0 ≤ s.currentRow) (hlt : s.currentRow < (s.items.length : Int)) :
    MoveSwapSpec s := by
  have hr : (s.currentRow.toNat : Int) = s.currentRow := Int.toNat_of_nonneg hge
  have hrlen : s.currentRow.toNat < s.items.length := by omega
  refine ⟨?_, ?_, ?_, ?_⟩
  · intro h0
    unfold move_selected_up
    rw [if_pos (by omega)]
  · intro hlast
    unfold move_selected_down
    rw [if_pos (by omega)]
  · intro hpos
    obtain ⟨i, hi⟩ : ∃ i, s.currentRow.toNat = i + 1 :=
      ⟨s.currentRow.toNat - 1, by omega⟩
    have hilen : i + 1 < s.items.length := hi ▸ hrlen
    have hyy : s.items[i]? = some (s.items.get ⟨i, by omega⟩) :=
      List.getElem?_eq_getElem (by omega)
    have hxx : s.items[i + 1]? = some (s.items.get ⟨i + 1, hilen⟩) :=
      List.getElem?_eq_getElem hilen
    have hmov := move_up_eq s i (by omega) _ hxx
    have hswap := eraseIdx_insertIdx_swap_up s.items i _ _ hyy hxx
    have hcr1 : (s.currentRow - 1).toNat = i := by omega
    rw [hi, hmov]
    simp only [hswap, Nat.add_sub_cancel, hcr1]
    refine ⟨swapForm_length _ _ _ _ hilen, ?_, ?_, ?_, by trivial, ?_⟩
    · rw [swapForm_getElem_at _ _ _ _ hilen, hxx]
    · rw [swapForm_getElem_succ _ _ _ _ hilen, hyy]
    · intro j hj1 hj2
      rcases Nat.lt_or_ge j i with hlt' | hge'
      · exact swapForm_getElem_lt _ _ _ _ hilen j hlt'
      · have : i + 2 ≤ j := by omega
        exact swapForm_getElem_ge _ _ _ _ hilen j this
    · rw [swapForm_getElem_at _ _ _ _ hilen, hxx]
  · intro hdown
    set i := s.currentRow.toNat with hi
    have hilen : i + 1 < s.items.length := by omega
    have hyy : s.items[i]? = some (s.items.get ⟨i, by omega⟩) :=
      List.getElem?_eq_getElem (by omega)
    have hxx : s.items[i + 1]? = some (s.items.get ⟨i + 1, hilen⟩) :=
      List.getElem?_eq_getElem hilen
    have hmov := move_down_eq s i (by omega) hilen _ hyy
    have hswap := eraseIdx_insertIdx_swap_down s.items i _ _ hyy hxx
    have hcr1 : (s.currentRow + 1).toNat = i + 1 := by omega
    rw [hmov]
    simp only [hswap, hcr1]
    refine ⟨swapForm_length _ _ _ _ hilen, ?_, ?_, ?_, by trivial, ?_⟩
    · rw [swapForm_getElem_at _ _ _ _ hilen, hxx]
    · rw [swapForm_getElem_succ _ _ _ _ hilen, hyy]
    · intro j hj1 hj2
      rcases Nat.lt_or_ge j i with hlt' | hge'
      · exact swapForm_getElem_lt _ _ _ _ hilen j hlt'
      · have : i + 2 ≤ j := by omega
        exact swapForm_getElem_ge _ _ _ _ hilen j this
    · rw [swapForm_getElem_succ _ _ _ _ hilen, hyy]

/-- A sample catalog entry used in concrete witnesses. -/
def samplePage (n : Nat) : PageEntry :=
  { source_path := { stem := "a", ext := ".tif" },
    page_index := n,
    source_type := SourceType.tiff }

/-- Concrete list state with three entries and row 1 selected. -/
def sC5 : PageListState :=
  { items := [samplePage 0, samplePage 1, samplePage 2], currentRow := 1 }

/-- Witness for C5 at a concrete three-entry catalog with row 1 selected. -/
theorem c5_move_swaps_adjacent_witness :
    0 ≤ sC5.currentRow ∧ sC5.currentRow < (sC5.items.length : Int) ∧ MoveSwapSpec sC5 :=
  ⟨by decide, by decide, c5_move_swaps_adjacent sC5 (by decide) (by decide)⟩

/-- C6: the bi-level normalization is idempotent, and a frame already in
bi-level mode "1" is returned unchanged.  `convert` models PIL's
`Image.convert("1")`, whose output always carries mode "1". -/
theorem c6_ensure_group4_idempotent (convert : Frame → Frame)
    (hconv : ∀ f, (convert f).mode = "1") (img : Frame) :
    ensure_group4_mode convert (ensure_group4_mode convert img)
      = ensure_group4_mode convert img ∧
    (img.mode = "1" → ensure_group4_mode convert img = img) := by
  unfold ensure_group4_mode
  constructor
  · by_cases h : img.mode = "1"
    · simp [h]
    · simp [h, hconv]
  · intro h
    simp [h]

/-- A stub for PIL's mode-"1" conversion, used only in the C6 witness. -/
def bilevel_stub : Frame → Frame := fun f => { mode := "1", data := f.data }

/-- Witness for C6 at a concrete grayscale frame. -/
theorem c6_ensure_group4_idempotent_witness :
    (∀ f, (bilevel_stub f).mode = "1") ∧
    (ensure_group4_mode bilevel_stub
        (ensure_group4_mode bilevel_stub { mode := "L", data := 7 })
      = ensure_group4_mode bilevel_stub { mode := "L", data := 7 } ∧
     (({ mode := "L", data := 7 } : Frame).mode = "1" →
       ensure_group4_mode bilevel_stub { mode := "L", data := 7 }
         = { mode := "L", data := 7 })) :=
  ⟨fun _ => rfl,
   c6_ensure_group4_idempotent bilevel_stub (fun _ => rfl) { mode := "L", data := 7 }⟩

/-- C10: when no row is selected (`currentRow = -1`), both move operations
leave the catalog and the selection unchanged. -/
theorem c10_move_noop_without_selection (items : List PageEntry) :
    move_selected_up { items := items, currentRow := -1 }
      = { items := items, currentRow := -1 } ∧
    move_selected_down { items := items, currentRow := -1 }
      = { items := items, currentRow := -1 } := by
  constructor
  · unfold move_selected_up
    rw [if_pos (by norm_num)]
  · unfold move_selected_down
    rw [if_pos (Or.inl (by norm_num))]

/-- Python's `str.lower()`, modelled character-wise (kernel-reducible). -/
def strLower (s : String) : String := String.mk (s.data.map Char.toLower)

/-- Environment for `add_files`: the external page-count calls.
`tiffPageCount` models `Image.open(path)` plus `n_frames`; `docuPageCount`
models `xdwopen(path).pages`.  `Except.error` models a raised exception. -/
structure AddEnv where
  tiffPageCount : SrcPath → Except String Nat
  docuPageCount : SrcPath → Except String Nat

/-- One iteration of the loop body of `MainWindow.add_files` for a single
path: the new `PageEntry` values (one per page, in natural page order)
and the error lines contributed to the batch report.  A path whose
extension is unsupported contributes neither (`continue`). -/
def add_one_file (env : AddEnv) (path : SrcPath) : List PageEntry × List String :=
  let ext := strLower path.suffix
  if ext ∈ TIFF_EXTENSIONS then
    match env.tiffPageCount path with
    | Except.ok n =>
        ((List.range n).map fun i =>
          { source_path := path, page_index := i, source_type := SourceType.tiff }, [])
    | Except.error e => ([], [path.name ++ ": " ++ e])
  else if ext ∈ DOCUWORKS_EXTENSIONS then
    match env.docuPageCount path with
    | Except.ok n =>
        ((List.range n).map fun i =>
          { source_path := path, page_index := i, source_type := SourceType.docuworks }, [])
    | Except.error e => ([], [path.name ++ ": " ++ e])
  else ([], [])

/-- Model of `MainWindow.add_files`: process the batch in order, appending new
entries to the existing catalog (`self.page_list`) and collecting error
lines; the second component is the combined error report, displayed once
at the end when non-empty. -/
def add_files (env : AddEnv) (catalog : List PageEntry) (paths : List SrcPath) :
    List PageEntry × List String :=
  match paths with
  | [] => (catalog, [])
  | p :: rest =>
    let r := add_one_file env p
    let r2 := add_files env (catalog ++ r.1) rest
    (r2.1, r.2 ++ r2.2)

/-- The `source_type` assigned by `add_files` to pages of a supported
path. -/
def source_kind_of (p : SrcPath) : SourceType :=
  if strLower p.suffix ∈ TIFF_EXTENSIONS then SourceType.tiff else SourceType.docuworks

/-- The page-count call `add_files` makes for a supported path. -/
def fileResult (env : AddEnv) (p : SrcPath) : Except String Nat :=
  if strLower p.suffix ∈ TIFF_EXTENSIONS then env.tiffPageCount p
  else env.docuPageCount p

/-- Whether the page-count call for a supported path fails. -/
def fileFails (env : AddEnv) (p : SrcPath) : Bool :=
  match fileResult env p with
  | Except.ok _ => false
  | Except.error _ => true

/-- The catalog entries a supported path contributes: one per page in
natural page order on success, nothing on failure. -/
def successEntries (env : AddEnv) (p : SrcPath) : List PageEntry :=
  match fileResult env p with
  | Except.ok n =>
      (List.range n).map fun i =>
        { source_path := p, page_index := i, source_type := source_kind_of p }
  | Except.error _ => []

/-- Closed form of `add_files`: the catalog is extended, in batch order,
with each path's contribution, and the report concatenates each path's
error lines. -/
theorem add_files_eq (env : AddEnv) (catalog : List PageEntry) (paths : List SrcPath) :
    add_files env catalog paths
      = (catalog ++ (paths.map fun p => (add_one_file env p).1).flatten,
         (paths.map fun p => (add_one_file env p).2).flatten) := by
  induction paths generalizing catalog with
  | nil => simp [add_files]
  | cons p rest ih =>
    simp only [add_files, ih, List.map_cons, List.flatten_cons, List.append_assoc]

/-- For a supported path, the loop body contributes exactly the success
entries, and one error line exactly when the page-count call fails. -/
theorem add_one_file_supported (env : AddEnv) (p : SrcPath)
    (hs : strLower p.suffix ∈ SUPPORTED_EXTENSIONS) :
    (add_one_file env p).1 = successEntries env p ∧
    (add_one_file env p).2.length = (if fileFails env p then 1 else 0) := by
  by_cases h1 : strLower p.suffix ∈ TIFF_EXTENSIONS
  · cases hres : env.tiffPageCount p with
    | ok n =>
      simp [add_one_file, successEntries, fileResult, fileFails, source_kind_of, h1, hres]
    | error e =>
      simp [add_one_file, successEntries, fileResult, fileFails, source_kind_of, h1, hres]
  · have h2 : strLower p.suffix ∈ DOCUWORKS_EXTENSIONS := by
      unfold SUPPORTED_EXTENSIONS at hs
      rcases List.mem_append.mp hs with h | h
      · exact absurd h h1
      · exact h
    cases hres : env.docuPageCount p with
    | ok n =>
      simp [add_one_file, successEntries, fileResult, fileFails, source_kind_of, h1, h2, hres]
    | error e =>
      simp [add_one_file, successEntries, fileResult, fileFails, source_kind_of, h1, h2, hres]

/-- For an unsupported path, the loop body contributes nothing at all. -/
theorem add_one_file_unsupported (env : AddEnv) (p : SrcPath)
    (hs : strLower p.suffix ∉ SUPPORTED_EXTENSIONS) :
    add_one_file env p = ([], []) := by
  have h1 : strLower p.suffix ∉ TIFF_EXTENSIONS := fun h =>
    hs (List.mem_append.mpr (Or.inl h))
  have h2 : strLower p.suffix ∉ DOCUWORKS_EXTENSIONS := fun h =>
    hs (List.mem_append.mpr (Or.inr h))
  unfold add_one_file
  simp [h1, h2]

/-- C7: adding a batch of supported files of which some fail their
page-count call still appends all pages of every successful file to the
catalog, in batch order and natural page order, and reports exactly one
error per failed file. -/
theorem c7_batch_partial_failure (env : AddEnv) (catalog : List PageEntry)
    (paths : List SrcPath)
    (hsup : ∀ p ∈ paths, strLower p.suffix ∈ SUPPORTED_EXTENSIONS) :
    (add_files env catalog paths).1
      = catalog ++ (paths.map (successEntries env)).flatten ∧
    (add_files env catalog paths).2.length
      = (paths.filter (fun p => fileFails env p)).length := by
  rw [add_files_eq]
  constructor
  · have : (paths.map fun p => (add_one_file env p).1) = paths.map (successEntries env) :=
      List.map_congr_left fun p hp => (add_one_file_supported env p (hsup p hp)).1
    rw [this]
  · induction paths with
    | nil => simp
    | cons p rest ih =>
      have hp := add_one_file_supported env p (hsup p (List.mem_cons_self p rest))
      have ihr := ih fun q hq => hsup q (List.mem_cons_of_mem p hq)
      simp only [List.map_cons, List.flatten_cons, List.length_append, ihr,
        List.filter_cons]
      rcases hf : fileFails env p with _ | _
      · simp only [hf, if_false] at hp ⊢
        simp [hp.2]
      · simp only [hf, if_true] at hp ⊢
        simp [hp.2]
        omega

/-- Concrete environment for the batch-add witnesses: the file with stem
"bad" cannot be opened, every other TIFF has 2 pages and every DocuWorks
file has 1 page. -/
def envAdd : AddEnv :=
  { tiffPageCount := fun p => if p.stem = "bad" then Except.error "boom" else Except.ok 2,
    docuPageCount := fun _ => Except.ok 1 }

/-- Concrete batch for the C7 witness: three supported files, one failing. -/
def batchC7 : List SrcPath :=
  [{ stem := "good", ext := ".tif" }, { stem := "bad", ext := ".tif" },
   { stem := "doc", ext := ".xdw" }]

/-- Witness for C7 on a concrete batch of three supported files of which
one fails its page-count call. -/
theorem c7_batch_partial_failure_witness :
    (∀ p ∈ batchC7, strLower p.suffix ∈ SUPPORTED_EXTENSIONS) ∧
    ((add_files envAdd [] batchC7).1
       = [] ++ (batchC7.map (successEntries envAdd)).flatten ∧
     (add_files envAdd [] batchC7).2.length
       = (batchC7.filter (fun p => fileFails envAdd p)).length) :=
  ⟨by decide, c7_batch_partial_failure envAdd [] batchC7 (by decide)⟩

/-- Concrete unsupported path used for claim C3. -/
def txtPath : SrcPath := { stem := "notes", ext := ".txt" }

/-- Concrete supported path used for claim C3. -/
def tifPath : SrcPath := { stem := "scan", ext := ".tif" }

/-- Counterexample to C3 as stated: a batch containing an unrecognized
".txt" path produces an EMPTY error report — the path is skipped silently,
no SourceUnreadable error is recorded for it — while the remaining
supported path still contributes its pages. -/
theorem c3_counterexample :
    (add_files envAdd [] [txtPath, tifPath]).2 = [] ∧
    (add_files envAdd [] [txtPath, tifPath]).1
      = [{ source_path := tifPath, page_index := 0, source_type := SourceType.tiff },
         { source_path := tifPath, page_index := 1, source_type := SourceType.tiff }] := by
  decide

/-- C3 amended: `add_files` silently skips any path whose extension is not
a recognized raster-container or compound-document kind — it adds no
entries and reports no error for that path — and the batch behaves exactly
as if the path were absent, so the remaining paths are still processed. -/
theorem c3_unsupported_skipped_silently (env : AddEnv) (catalog : List PageEntry)
    (pre post : List SrcPath) (p : SrcPath)
    (hunsup : strLower p.suffix ∉ SUPPORTED_EXTENSIONS) :
    add_files env catalog (pre ++ p :: post) = add_files env catalog (pre ++ post) := by
  rw [add_files_eq, add_files_eq]
  have hz := add_one_file_unsupported env p hunsup
  simp [hz]

/-- Witness for the amended C3: dropping the concrete ".txt" path from a
batch does not change the result. -/
theorem c3_unsupported_skipped_silently_witness :
    strLower txtPath.suffix ∉ SUPPORTED_EXTENSIONS ∧
    add_files envAdd [] ([tifPath] ++ txtPath :: [tifPath])
      = add_files envAdd [] ([tifPath] ++ [tifPath]) :=
  ⟨by decide, c3_unsupported_skipped_silently envAdd [] [tifPath] [tifPath] txtPath (by decide)⟩

/-- Environment for one merge: the external library calls made by
`create_merged_tiff` and its helpers.  `loadTiff` models
`load_tiff_page` (PIL open + seek + copy, `Except.error` for a raised
`IndexError` or decode failure); `openDoc` models `xdwopen`;
`exportImage` models `doc.page(i).export_image` followed by re-loading the
temporary artifact; `convert1` models PIL's `Image.convert("1")`;
`closeFails p` says whether `doc.close()` raises for the handle of `p`;
`saveFails` says whether the final `first.save(...)` raises. -/
structure MergeEnv where
  loadTiff : SrcPath → Nat → Except String Frame
  openDoc : SrcPath → Except String Unit
  exportImage : SrcPath → Nat → Except String Frame
  convert1 : Frame → Frame
  closeFails : SrcPath → Bool
  saveFails : Bool

/-- Observable filesystem / resource state of one merge operation. -/
structure MergeState where
  /-- whether the scoped temporary directory currently exists -/
  tempDirLive : Bool
  /-- how many temporary directories were ever created -/
  tempDirCount : Nat
  /-- artifacts currently present in the temporary directory -/
  tempFiles : List String
  /-- every `xdwopen` call made, in order (one entry per call) -/
  openLog : List SrcPath
  /-- keys of the `xdw_docs` dict, in insertion order -/
  openedDocs : List SrcPath
  /-- handles successfully closed so far, in order -/
  closeLog : List SrcPath
  /-- the merged output file, once `save` succeeds -/
  outputFile : Option String
deriving DecidableEq

/-- The state before any merge work: nothing created, nothing opened. -/
def initMergeState : MergeState :=
  { tempDirLive := false, tempDirCount := 0, tempFiles := [],
    openLog := [], openedDocs := [], closeLog := [], outputFile := none }

/-- One loop iteration of `create_merged_tiff` for entry `entry` at
position `order`: `load_tiff_page` for a TIFF entry, or
`convert_docuworks_page` (lazy cached `xdwopen`, then `export_image` to
`docuworks_{order:05d}.tif` in the temporary directory, then reload) for a
DocuWorks entry.  Returns the state as mutated up to the failure point and
the produced frame or the raised error. -/
def processEntry (env : MergeEnv) (entry : PageEntry) (order : Nat) (st : MergeState) :
    MergeState × Except String Frame :=
  match entry.source_type with
  | SourceType.tiff => (st, env.loadTiff entry.source_path entry.page_index)
  | SourceType.docuworks =>
    if entry.source_path ∈ st.openedDocs then
      match env.exportImage entry.source_path entry.page_index with
      | Except.error msg => (st, Except.error msg)
      | Except.ok f =>
        ({ st with tempFiles := st.tempFiles ++ ["docuworks_" ++ toString order ++ ".tif"] },
         Except.ok f)
    else
      match env.openDoc entry.source_path with
      | Except.error msg => (st, Except.error msg)
      | Except.ok _ =>
        let st1 := { st with openLog := st.openLog ++ [entry.source_path],
                             openedDocs := st.openedDocs ++ [entry.source_path] }
        match env.exportImage entry.source_path entry.page_index with
        | Except.error msg => (st1, Except.error msg)
        | Except.ok f =>
          ({ st1 with tempFiles := st1.tempFiles ++ ["docuworks_" ++ toString order ++ ".tif"] },
           Except.ok f)

/-- The `for order, entry in enumerate(entries)` loop of
`create_merged_tiff`: extract each frame in catalog order, apply
`ensure_group4_mode` when the compression is "group4", and accumulate the
frames; the first raised error aborts the iteration. -/
def mergeLoop (env : MergeEnv) (comp : String) (entries : List PageEntry) (order : Nat)
    (st : MergeState) (acc : List Frame) : MergeState × Except String (List Frame) :=
  match entries with
  | [] => (st, Except.ok acc)
  | e :: rest =>
    match processEntry env e order st with
    | (st1, Except.error msg) => (st1, Except.error msg)
    | (st1, Except.ok f) =>
      let f1 := if comp = "group4" then ensure_group4_mode env.convert1 f else f
      mergeLoop env comp rest (order + 1) st1 (acc ++ [f1])

/-- The `finally: for doc in xdw_docs.values(): doc.close()` teardown:
close the cached handles in insertion order; a raising `close()` aborts
the loop and its exception propagates (`some msg`). -/
def closeAll (env : MergeEnv) (docs : List SrcPath) (st : MergeState) :
    MergeState × Option String :=
  match docs with
  | [] => (st, none)
  | p :: rest =>
    if env.closeFails p then (st, some ("close failed: " ++ p.name))
    else closeAll env rest { st with closeLog := st.closeLog ++ [p] }

/-- The state the merge loop starts from: inside
`tempfile.TemporaryDirectory()`, with one fresh temporary directory. -/
def loopStart : MergeState :=
  { initMergeState with tempDirLive := true, tempDirCount := 1 }

/-- Model of `MainWindow.create_merged_tiff`: create the scoped temporary
directory, run the extraction loop, close all cached DocuWorks handles in
a `finally` block, drop the temporary directory on scope exit, then —
only if no exception is pending — check for the empty-frames case and
save all frames to one multi-page TIFF.  The `Except.ok` payload is the
ordered page sequence written to `output_path`. -/
def create_merged_tiff (env : MergeEnv) (entries : List PageEntry)
    (output_path : String) (comp : String) : MergeState × Except String (List Frame) :=
  let r := mergeLoop env comp entries 0 loopStart []
  let c := closeAll env r.1.openedDocs r.1
  let st4 := { c.1 with tempDirLive := false, tempFiles := [] }
  match c.2 with
  | some msg => (st4, Except.error msg)
  | none =>
    match r.2 with
    | Except.error msg => (st4, Except.error msg)
    | Except.ok frames =>
      if frames.isEmpty then (st4, Except.error "NoPagesSelected")
      else if env.saveFails then (st4, Except.error "WriteFailure")
      else ({ st4 with outputFile := some output_path }, Except.ok frames)

/-- Result of `MainWindow.export_tiff` as seen by the user. -/
inductive ExportResult where
  | noPages
  | cancelled
  | failed (msg : String)
  | completed (path : String)
deriving DecidableEq

/-- The save-file dialog: `none` models the user cancelling. -/
structure UiEnv where
  saveDialog : Option SrcPath

/-- Output-path normalization in `export_tiff`: a non-TIFF suffix is
replaced by ".tif". -/
def normalize_output_path (p : SrcPath) : SrcPath :=
  if strLower p.suffix ∈ TIFF_EXTENSIONS then p else { p with ext := ".tif" }

/-- Model of `MainWindow.export_tiff`: guard against an empty catalog (information
dialog, nothing else happens), then ask for a save path, normalize it,
and run `create_merged_tiff`, reporting failure or completion. -/
def export_tiff (env : MergeEnv) (ui : UiEnv) (catalog : List PageEntry)
    (comp : String) : MergeState × ExportResult :=
  if catalog.length = 0 then (initMergeState, ExportResult.noPages)
  else
    match ui.saveDialog with
    | none => (initMergeState, ExportResult.cancelled)
    | some out =>
      let outPath := normalize_output_path out
      let r := create_merged_tiff env catalog outPath.name comp
      match r.2 with
      | Except.error msg => (r.1, ExportResult.failed msg)
      | Except.ok _ => (r.1, ExportResult.completed outPath.name)

/-- C9: invoking a merge on an empty catalog reports the NoPagesSelected
condition and performs no filesystem writes at all: no temporary directory
is ever created, no artifact written, no output file produced, no document
opened. -/
theorem c9_empty_catalog_no_writes (env : MergeEnv) (ui : UiEnv) (comp : String) :
    export_tiff env ui [] comp = (initMergeState, ExportResult.noPages) ∧
    (export_tiff env ui [] comp).1.tempDirCount = 0 ∧
    (export_tiff env ui [] comp).1.tempFiles = [] ∧
    (export_tiff env ui [] comp).1.outputFile = none ∧
    (export_tiff env ui [] comp).1.openLog = [] :=
  ⟨rfl, rfl, rfl, rfl, rfl⟩

/-- The frame a page reference yields when everything the reader needs
succeeds, and `none` when extraction would raise. -/
def rawFrame (env : MergeEnv) (e : PageEntry) : Option Frame :=
  match e.source_type with
  | SourceType.tiff => (env.loadTiff e.source_path e.page_index).toOption
  | SourceType.docuworks =>
    match env.openDoc e.source_path, env.exportImage e.source_path e.page_index with
    | Except.ok _, Except.ok f => some f
    | Except.error _, _ => none
    | _, Except.error _ => none

/-- Placeholder frame (never produced; used only to totalize `getD`). -/
def dfltFrame : Frame := { mode := "", data := 0 }

/-- The per-frame normalization the loop applies for the chosen
compression scheme. -/
def normFrame (env : MergeEnv) (comp : String) (f : Frame) : Frame :=
  if comp = "group4" then ensure_group4_mode env.convert1 f else f

/-- The output page a successful merge produces for one page reference. -/
def expectedFrame (env : MergeEnv) (comp : String) (e : PageEntry) : Frame :=
  normFrame env comp ((rawFrame env e).getD dfltFrame)

/-- Proposition that `openDoc` succeeds on `p`. -/
def openOk (env : MergeEnv) (p : SrcPath) : Prop :=
  ∃ u, env.openDoc p = Except.ok u

/-- One loop iteration does not touch the close log, the output file, or
the temporary directory itself. -/
theorem processEntry_preserves (env : MergeEnv) (e : PageEntry) (order : Nat)
    (st : MergeState) :
    (processEntry env e order st).1.closeLog = st.closeLog ∧
    (processEntry env e order st).1.outputFile = st.outputFile ∧
    (processEntry env e order st).1.tempDirLive = st.tempDirLive ∧
    (processEntry env e order st).1.tempDirCount = st.tempDirCount := by
  unfold processEntry
  cases e.source_type with
  | tiff => exact ⟨rfl, rfl, rfl, rfl⟩
  | docuworks =>
    by_cases hmem : e.source_path ∈ st.openedDocs
    · rw [if_pos hmem]
      cases env.exportImage e.source_path e.page_index <;> exact ⟨rfl, rfl, rfl, rfl⟩
    · rw [if_neg hmem]
      cases env.openDoc e.source_path with
      | error msg => exact ⟨rfl, rfl, rfl, rfl⟩
      | ok u =>
        cases env.exportImage e.source_path e.page_index <;> exact ⟨rfl, rfl, rfl, rfl⟩

/-- The whole loop does not touch the close log, the output file, or the
temporary directory itself. -/
theorem mergeLoop_preserves (env : MergeEnv) (comp : String) :
    ∀ (entries : List PageEntry) (order : Nat) (st : MergeState) (acc : List Frame),
    (mergeLoop env comp entries order st acc).1.closeLog = st.closeLog ∧
    (mergeLoop env comp entries order st acc).1.outputFile = st.outputFile ∧
    (mergeLoop env comp entries order st acc).1.tempDirLive = st.tempDirLive ∧
    (mergeLoop env comp entries order st acc).1.tempDirCount = st.tempDirCount := by
  intro entries
  induction entries with
  | nil => intro order st acc; exact ⟨rfl, rfl, rfl, rfl⟩
  | cons e rest ih =>
    intro order st acc
    have hp := processEntry_preserves env e order st
    unfold mergeLoop
    cases hpe : processEntry env e order st with
    | mk st1 res =>
      rw [hpe] at hp
      cases res with
      | error msg => exact hp
      | ok f =>
        have := ih (order + 1) st1 (acc ++ [if comp = "group4" then ensure_group4_mode env.convert1 f else f])
        exact ⟨this.1.trans hp.1, this.2.1.trans hp.2.1,
               this.2.2.1.trans hp.2.2.1, this.2.2.2.trans hp.2.2.2⟩


/-- Branch equation: a TIFF entry whose load succeeds. -/
theorem processEntry_eq_tiff (env : MergeEnv) (e : PageEntry) (order : Nat)
    (st : MergeState) (htype : e.source_type = SourceType.tiff) :
    processEntry env e order st = (st, env.loadTiff e.source_path e.page_index) := by
  unfold processEntry
  rw [htype]

/-- Branch equation: a DocuWorks entry whose source is already cached. -/
theorem processEntry_eq_docu_cached (env : MergeEnv) (e : PageEntry) (order : Nat)
    (st : MergeState) (htype : e.source_type = SourceType.docuworks)
    (hmem : e.source_path ∈ st.openedDocs) (f : Frame)
    (hx : env.exportImage e.source_path e.page_index = Except.ok f) :
    processEntry env e order st
      = ({ st with tempFiles := st.tempFiles ++ ["docuworks_" ++ toString order ++ ".tif"] },
         Except.ok f) := by
  unfold processEntry
  rw [htype, if_pos hmem, hx]

/-- Branch equation: a DocuWorks entry whose source is opened lazily. -/
theorem processEntry_eq_docu_fresh (env : MergeEnv) (e : PageEntry) (order : Nat)
    (st : MergeState) (htype : e.source_type = SourceType.docuworks)
    (hmem : e.source_path ∉ st.openedDocs) (u : Unit)
    (ho : env.openDoc e.source_path = Except.ok u) (f : Frame)
    (hx : env.exportImage e.source_path e.page_index = Except.ok f) :
    processEntry env e order st
      = ({ st with openLog := st.openLog ++ [e.source_path],
                   openedDocs := st.openedDocs ++ [e.source_path],
                   tempFiles := st.tempFiles ++ ["docuworks_" ++ toString order ++ ".tif"] },
         Except.ok f) := by
  unfold processEntry
  rw [htype, if_neg hmem, ho, hx]

/-- When extraction of `e` succeeds, one loop iteration returns exactly
that frame; the handle cache grows only by a first-seen DocuWorks source,
stays backed by successful `xdwopen` calls, and stays equal to the open
log. -/
theorem processEntry_success (env : MergeEnv) (e : PageEntry) (order : Nat)
    (st : MergeState)
    (hopen : ∀ p ∈ st.openedDocs, openOk env p)
    (hs : (rawFrame env e).isSome = true) :
    (processEntry env e order st).2 = Except.ok ((rawFrame env e).getD dfltFrame) ∧
    (∀ p, p ∈ (processEntry env e order st).1.openedDocs ↔
        p ∈ st.openedDocs ∨
          (e.source_type = SourceType.docuworks ∧ e.source_path = p)) ∧
    (∀ p ∈ (processEntry env e order st).1.openedDocs, openOk env p) ∧
    ((processEntry env e order st).1.openedDocs = st.openedDocs ∨
      (e.source_path ∉ st.openedDocs ∧
       (processEntry env e order st).1.openedDocs = st.openedDocs ++ [e.source_path])) ∧
    (st.openedDocs = st.openLog →
      (processEntry env e order st).1.openedDocs = (processEntry env e order st).1.openLog) := by
  cases htype : e.source_type with
  | tiff =>
    have hr0 : rawFrame env e = (env.loadTiff e.source_path e.page_index).toOption := by
      unfold rawFrame; rw [htype]
    cases hl : env.loadTiff e.source_path e.page_index with
    | error msg => rw [hr0, hl] at hs; simp [Except.toOption] at hs
    | ok f =>
      have hr : rawFrame env e = some f := by rw [hr0, hl]; rfl
      have hpe := processEntry_eq_tiff env e order st htype
      rw [hpe, hl]
      refine ⟨?_, ?_, ?_, ?_, ?_⟩
      · rw [hr]
        rfl
      · intro p
        simp [htype]
      · exact hopen
      · exact Or.inl rfl
      · exact fun h => h
  | docuworks =>
    have hr0 : rawFrame env e
        = (match env.openDoc e.source_path, env.exportImage e.source_path e.page_index with
           | Except.ok _, Except.ok f => some f
           | Except.error _, _ => none
           | _, Except.error _ => none) := by
      unfold rawFrame; rw [htype]
    by_cases hmem : e.source_path ∈ st.openedDocs
    · obtain ⟨u, hu⟩ := hopen e.source_path hmem
      cases hx : env.exportImage e.source_path e.page_index with
      | error msg => rw [hr0, hu, hx] at hs; simp at hs
      | ok f =>
        have hr : rawFrame env e = some f := by rw [hr0, hu, hx]
        have hpe := processEntry_eq_docu_cached env e order st htype hmem f hx
        rw [hpe]
        refine ⟨?_, ?_, ?_, ?_, ?_⟩
        · rw [hr]
          rfl
        · intro p
          constructor
          · intro hp; exact Or.inl hp
          · rintro (hp | ⟨_, hp⟩)
            · exact hp
            · exact hp ▸ hmem
        · exact hopen
        · exact Or.inl rfl
        · exact fun h => h
    · cases ho : env.openDoc e.source_path with
      | error msg => rw [hr0, ho] at hs; simp at hs
      | ok u =>
        cases hx : env.exportImage e.source_path e.page_index with
        | error msg => rw [hr0, ho, hx] at hs; simp at hs
        | ok f =>
          have hr : rawFrame env e = some f := by rw [hr0, ho, hx]
          have hpe := processEntry_eq_docu_fresh env e order st htype hmem u ho f hx
          rw [hpe]
          refine ⟨?_, ?_, ?_, ?_, ?_⟩
          · rw [hr]
            rfl
          · intro p
            simp only [List.mem_append, List.mem_singleton]
            constructor
            · rintro (hp | hp)
              · exact Or.inl hp
              · exact Or.inr ⟨by trivial, hp.symm⟩
            · rintro (hp | ⟨_, hp⟩)
              · exact Or.inl hp
              · exact Or.inr hp.symm
          · intro p hp
            rcases List.mem_append.mp hp with hp | hp
            · exact hopen p hp
            · rw [List.mem_singleton] at hp
              exact hp ▸ ⟨u, ho⟩
          · exact Or.inr ⟨hmem, rfl⟩
          · intro h
            rw [h]

/-- When extraction of `e` raises, one loop iteration raises. -/
theorem processEntry_fail (env : MergeEnv) (e : PageEntry) (order : Nat)
    (st : MergeState)
    (hopen : ∀ p ∈ st.openedDocs, openOk env p)
    (hn : rawFrame env e = none) :
    ∃ msg, (processEntry env e order st).2 = Except.error msg := by
  cases htype : e.source_type with
  | tiff =>
    have hr0 : rawFrame env e = (env.loadTiff e.source_path e.page_index).toOption := by
      unfold rawFrame; rw [htype]
    cases hl : env.loadTiff e.source_path e.page_index with
    | error msg =>
      refine ⟨msg, ?_⟩
      rw [processEntry_eq_tiff env e order st htype, hl]
    | ok f => rw [hr0, hl] at hn; simp [Except.toOption] at hn
  | docuworks =>
    have hr0 : rawFrame env e
        = (match env.openDoc e.source_path, env.exportImage e.source_path e.page_index with
           | Except.ok _, Except.ok f => some f
           | Except.error _, _ => none
           | _, Except.error _ => none) := by
      unfold rawFrame; rw [htype]
    by_cases hmem : e.source_path ∈ st.openedDocs
    · obtain ⟨u, hu⟩ := hopen e.source_path hmem
      cases hx : env.exportImage e.source_path e.page_index with
      | error msg =>
        refine ⟨msg, ?_⟩
        unfold processEntry
        rw [htype, if_pos hmem, hx]
      | ok f => rw [hr0, hu, hx] at hn; simp at hn
    · cases ho : env.openDoc e.source_path with
      | error msg =>
        refine ⟨msg, ?_⟩
        unfold processEntry
        rw [htype, if_neg hmem, ho]
      | ok u =>
        cases hx : env.exportImage e.source_path e.page_index with
        | error msg =>
          refine ⟨msg, ?_⟩
          unfold processEntry
          rw [htype, if_neg hmem, ho, hx]
        | ok f => rw [hr0, ho, hx] at hn; simp at hn

/-- When every entry extracts successfully the loop returns the
accumulated frames followed by one normalized frame per entry in input
order, and the handle cache ends up holding exactly the already-cached
paths plus the DocuWorks paths among the entries, all backed by
successful `xdwopen` calls. -/
theorem mergeLoop_success (env : MergeEnv) (comp : String) :
    ∀ (entries : List PageEntry) (order : Nat) (st : MergeState) (acc : List Frame),
    (∀ p ∈ st.openedDocs, openOk env p) →
    (∀ e ∈ entries, (rawFrame env e).isSome = true) →
    (mergeLoop env comp entries order st acc).2
      = Except.ok (acc ++ entries.map (expectedFrame env comp)) ∧
    (∀ p, p ∈ (mergeLoop env comp entries order st acc).1.openedDocs ↔
        p ∈ st.openedDocs ∨
          ∃ e ∈ entries, e.source_type = SourceType.docuworks ∧ e.source_path = p) ∧
    (∀ p ∈ (mergeLoop env comp entries order st acc).1.openedDocs, openOk env p) := by
  intro entries
  induction entries with
  | nil =>
    intro order st acc hopen hall
    refine ⟨by simp [mergeLoop], ?_, hopen⟩
    intro p
    simp [mergeLoop]
  | cons e rest ih =>
    intro order st acc hopen hall
    have hse := processEntry_success env e order st hopen
      (hall e (List.mem_cons_self e rest))
    cases hpe : processEntry env e order st with
    | mk st1 res =>
      rw [hpe] at hse
      have hres : res = Except.ok ((rawFrame env e).getD dfltFrame) := hse.1
      subst hres
      have hstep : mergeLoop env comp (e :: rest) order st acc
          = mergeLoop env comp rest (order + 1) st1
              (acc ++ [if comp = "group4"
                        then ensure_group4_mode env.convert1 ((rawFrame env e).getD dfltFrame)
                        else (rawFrame env e).getD dfltFrame]) := by
        conv_lhs => unfold mergeLoop
        rw [hpe]
      have hih := ih (order + 1) st1
        (acc ++ [if comp = "group4"
                  then ensure_group4_mode env.convert1 ((rawFrame env e).getD dfltFrame)
                  else (rawFrame env e).getD dfltFrame])
        hse.2.2.1
        (fun e' he' => hall e' (List.mem_cons_of_mem e he'))
      rw [hstep]
      refine ⟨?_, ?_, hih.2.2⟩
      · rw [hih.1]
        have : expectedFrame env comp e
            = (if comp = "group4"
                then ensure_group4_mode env.convert1 ((rawFrame env e).getD dfltFrame)
                else (rawFrame env e).getD dfltFrame) := by
          unfold expectedFrame normFrame
          rfl
        simp [this, List.append_assoc]
      · intro p
        rw [hih.2.1 p, List.exists_mem_cons_iff, hse.2.1 p]
        tauto

/-- When some entry fails to extract, the loop raises. -/
theorem mergeLoop_fail (env : MergeEnv) (comp : String) :
    ∀ (entries : List PageEntry) (order : Nat) (st : MergeState) (acc : List Frame),
    (∀ p ∈ st.openedDocs, openOk env p) →
    (∃ e ∈ entries, rawFrame env e = none) →
    ∃ msg, (mergeLoop env comp entries order st acc).2 = Except.error msg := by
  intro entries
  induction entries with
  | nil =>
    intro order st acc hopen hex
    obtain ⟨e, he, _⟩ := hex
    exact absurd he (List.not_mem_nil e)
  | cons e rest ih =>
    intro order st acc hopen hex
    by_cases hfirst : rawFrame env e = none
    · obtain ⟨msg, hmsg⟩ := processEntry_fail env e order st hopen hfirst
      cases hpe : processEntry env e order st with
      | mk st1 res =>
        rw [hpe] at hmsg
        refine ⟨msg, ?_⟩
        unfold mergeLoop
        rw [hpe]
        simp only at hmsg
        rw [hmsg]
    · have hs : (rawFrame env e).isSome = true := by
        cases hr : rawFrame env e with
        | none => exact absurd hr hfirst
        | some f => rfl
      have hse := processEntry_success env e order st hopen hs
      cases hpe : processEntry env e order st with
      | mk st1 res =>
        rw [hpe] at hse
        have hres : res = Except.ok ((rawFrame env e).getD dfltFrame) := hse.1
        subst hres
        have hrest : ∃ e' ∈ rest, rawFrame env e' = none := by
          obtain ⟨e', he', hn⟩ := hex
          rcases List.mem_cons.mp he' with rfl | hmem
          · exact absurd hn hfirst
          · exact ⟨e', hmem, hn⟩
        obtain ⟨msg, hmsg⟩ := ih (order + 1) st1
          (acc ++ [if comp = "group4"
                    then ensure_group4_mode env.convert1 ((rawFrame env e).getD dfltFrame)
                    else (rawFrame env e).getD dfltFrame])
          hse.2.2.1 hrest
        refine ⟨msg, ?_⟩
        unfold mergeLoop
        rw [hpe]
        exact hmsg

/-- The teardown loop only ever touches the close log. -/
theorem closeAll_preserves (env : MergeEnv) :
    ∀ (docs : List SrcPath) (st : MergeState),
    (closeAll env docs st).1.openLog = st.openLog ∧
    (closeAll env docs st).1.openedDocs = st.openedDocs ∧
    (closeAll env docs st).1.tempDirLive = st.tempDirLive ∧
    (closeAll env docs st).1.tempDirCount = st.tempDirCount ∧
    (closeAll env docs st).1.tempFiles = st.tempFiles ∧
    (closeAll env docs st).1.outputFile = st.outputFile := by
  intro docs
  induction docs with
  | nil => intro st; exact ⟨rfl, rfl, rfl, rfl, rfl, rfl⟩
  | cons p rest ih =>
    intro st
    unfold closeAll
    by_cases hf : env.closeFails p = true
    · rw [if_pos hf]
      exact ⟨rfl, rfl, rfl, rfl, rfl, rfl⟩
    · rw [if_neg hf]
      exact ih { st with closeLog := st.closeLog ++ [p] }

/-- When no close raises, the teardown closes every cached handle, in
order, and reports no error. -/
theorem closeAll_ok (env : MergeEnv) :
    ∀ (docs : List SrcPath) (st : MergeState),
    (∀ p ∈ docs, env.closeFails p = false) →
    closeAll env docs st = ({ st with closeLog := st.closeLog ++ docs }, none) := by
  intro docs
  induction docs with
  | nil => intro st h; simp [closeAll]
  | cons p rest ih =>
    intro st h
    unfold closeAll
    rw [if_neg (by rw [h p (List.mem_cons_self p rest)]; simp)]
    rw [ih _ (fun q hq => h q (List.mem_cons_of_mem p hq))]
    simp [List.append_assoc]

/-- Under an all-success run, the handle cache and the open log coincide
and the open log has no duplicates: no document is ever opened twice. -/
theorem mergeLoop_nodup (env : MergeEnv) (comp : String) :
    ∀ (entries : List PageEntry) (order : Nat) (st : MergeState) (acc : List Frame),
    (∀ p ∈ st.openedDocs, openOk env p) →
    (∀ e ∈ entries, (rawFrame env e).isSome = true) →
    st.openedDocs = st.openLog → st.openLog.Nodup →
    (mergeLoop env comp entries order st acc).1.openedDocs
      = (mergeLoop env comp entries order st acc).1.openLog ∧
    (mergeLoop env comp entries order st acc).1.openLog.Nodup := by
  intro entries
  induction entries with
  | nil =>
    intro order st acc hopen hall hinv hnodup
    exact ⟨hinv, hnodup⟩
  | cons e rest ih =>
    intro order st acc hopen hall hinv hnodup
    have hse := processEntry_success env e order st hopen
      (hall e (List.mem_cons_self e rest))
    cases hpe : processEntry env e order st with
    | mk st1 res =>
      rw [hpe] at hse
      have hres : res = Except.ok ((rawFrame env e).getD dfltFrame) := hse.1
      subst hres
      have hstep : mergeLoop env comp (e :: rest) order st acc
          = mergeLoop env comp rest (order + 1) st1
              (acc ++ [if comp = "group4"
                        then ensure_group4_mode env.convert1 ((rawFrame env e).getD dfltFrame)
                        else (rawFrame env e).getD dfltFrame]) := by
        conv_lhs => unfold mergeLoop
        rw [hpe]
      have hinv1 : st1.openedDocs = st1.openLog := hse.2.2.2.2 hinv
      have hnodup1 : st1.openLog.Nodup := by
        rcases hse.2.2.2.1 with hsame | ⟨hnew, happ⟩
        · rw [← hinv1, hsame, hinv]
          exact hnodup
        · rw [← hinv1, happ, List.nodup_append]
          refine ⟨hinv ▸ hnodup, List.nodup_singleton _, ?_⟩
          intro q hq hq'
          rw [List.mem_singleton] at hq'
          exact hnew (hq' ▸ hq)
      rw [hstep]
      exact ih (order + 1) st1 _ hse.2.2.1
        (fun e' he' => hall e' (List.mem_cons_of_mem e he')) hinv1 hnodup1

/-- Evaluation of `create_merged_tiff` when the extraction loop raises and no close
raises: the loop error propagates, every cached handle is appended to the
close log, the temporary directory and its artifacts are gone, and no
output is written. -/
theorem create_merged_tiff_fail_eq (env : MergeEnv) (entries : List PageEntry)
    (output_path : String) (comp : String) (msg : String)
    (hclose : ∀ p, env.closeFails p = false)
    (hmsg : (mergeLoop env comp entries 0 loopStart []).2 = Except.error msg) :
    create_merged_tiff env entries output_path comp
      = ({ (mergeLoop env comp entries 0 loopStart []).1 with
            closeLog := (mergeLoop env comp entries 0 loopStart []).1.closeLog
              ++ (mergeLoop env comp entries 0 loopStart []).1.openedDocs,
            tempDirLive := false, tempFiles := [] },
         Except.error msg) := by
  unfold create_merged_tiff
  dsimp only
  rw [closeAll_ok env _ _ (fun p _ => hclose p), hmsg]

/-- Evaluation of `create_merged_tiff` when the extraction loop succeeds with a
non-empty frame list, no close raises and the save succeeds. -/
theorem create_merged_tiff_ok_eq (env : MergeEnv) (entries : List PageEntry)
    (output_path : String) (comp : String) (frames : List Frame)
    (hclose : ∀ p, env.closeFails p = false)
    (hok : (mergeLoop env comp entries 0 loopStart []).2 = Except.ok frames)
    (hne : frames.isEmpty = false)
    (hsave : env.saveFails = false) :
    create_merged_tiff env entries output_path comp
      = ({ (mergeLoop env comp entries 0 loopStart []).1 with
            closeLog := (mergeLoop env comp entries 0 loopStart []).1.closeLog
              ++ (mergeLoop env comp entries 0 loopStart []).1.openedDocs,
            tempDirLive := false, tempFiles := [],
            outputFile := some output_path },
         Except.ok frames) := by
  unfold create_merged_tiff
  dsimp only
  rw [closeAll_ok env _ _ (fun p _ => hclose p)]
  dsimp only
  rw [hok]
  dsimp only
  rw [hne, hsave]
  simp

/-- No handle pre-exists at merge start. -/
theorem loopStart_no_handles (env : MergeEnv) :
    ∀ p ∈ loopStart.openedDocs, openOk env p := by
  intro p hp
  simp [loopStart, initMergeState] at hp

/-- C1: if the merge fails while extracting any page, the merge surfaces
an error, no output file is created, the temporary directory and its
artifacts are removed, and every DocuWorks handle opened so far is closed
(assuming, as the claim does, that closing itself does not raise). -/
theorem c1_failed_merge_cleanup (env : MergeEnv) (entries : List PageEntry)
    (output_path : String) (comp : String)
    (hfail : ∃ e ∈ entries, rawFrame env e = none)
    (hclose : ∀ p, env.closeFails p = false) :
    (∃ msg, (create_merged_tiff env entries output_path comp).2 = Except.error msg) ∧
    (create_merged_tiff env entries output_path comp).1.outputFile = none ∧
    (create_merged_tiff env entries output_path comp).1.tempDirLive = false ∧
    (create_merged_tiff env entries output_path comp).1.tempFiles = [] ∧
    (create_merged_tiff env entries output_path comp).1.closeLog
      = (create_merged_tiff env entries output_path comp).1.openedDocs := by
  obtain ⟨msg, hmsg⟩ :=
    mergeLoop_fail env comp entries 0 loopStart [] (loopStart_no_handles env) hfail
  have hpres := mergeLoop_preserves env comp entries 0 loopStart []
  rw [create_merged_tiff_fail_eq env entries output_path comp msg hclose hmsg]
  refine ⟨⟨msg, rfl⟩, ?_, rfl, rfl, ?_⟩
  · exact hpres.2.1
  · show (mergeLoop env comp entries 0 loopStart []).1.closeLog
        ++ (mergeLoop env comp entries 0 loopStart []).1.openedDocs
      = (mergeLoop env comp entries 0 loopStart []).1.openedDocs
    rw [hpres.1]
    rfl

/-- C4: a successful merge writes the output file and its page sequence
is exactly the input references mapped, in order, through extraction and
(for "group4") normalization — same count, same order. -/
theorem c4_merge_preserves_order (env : MergeEnv) (entries : List PageEntry)
    (output_path : String) (comp : String)
    (hne : entries ≠ [])
    (hall : ∀ e ∈ entries, (rawFrame env e).isSome = true)
    (hclose : ∀ p, env.closeFails p = false)
    (hsave : env.saveFails = false) :
    (create_merged_tiff env entries output_path comp).2
      = Except.ok (entries.map (expectedFrame env comp)) ∧
    (create_merged_tiff env entries output_path comp).1.outputFile = some output_path ∧
    (entries.map (expectedFrame env comp)).length = entries.length := by
  have hloop := mergeLoop_success env comp entries 0 loopStart []
    (loopStart_no_handles env) hall
  have hok : (mergeLoop env comp entries 0 loopStart []).2
      = Except.ok (entries.map (expectedFrame env comp)) := by
    have h1 := hloop.1
    simpa using h1
  have hframes_ne : (entries.map (expectedFrame env comp)).isEmpty = false := by
    cases entries with
    | nil => exact absurd rfl hne
    | cons a t => rfl
  rw [create_merged_tiff_ok_eq env entries output_path comp _ hclose hok hframes_ne hsave]
  exact ⟨rfl, rfl, List.length_map _ _⟩

/-- The open log and the handle cache of the final state are those of the
extraction loop: teardown and save never open documents. -/
theorem create_merged_tiff_opens (env : MergeEnv) (entries : List PageEntry)
    (output_path : String) (comp : String) :
    (create_merged_tiff env entries output_path comp).1.openLog
      = (mergeLoop env comp entries 0 loopStart []).1.openLog ∧
    (create_merged_tiff env entries output_path comp).1.openedDocs
      = (mergeLoop env comp entries 0 loopStart []).1.openedDocs := by
  have hcp := closeAll_preserves env
    (mergeLoop env comp entries 0 loopStart []).1.openedDocs
    (mergeLoop env comp entries 0 loopStart []).1
  unfold create_merged_tiff
  dsimp only
  repeat' split
  all_goals exact ⟨hcp.1, hcp.2.1⟩

/-- C8: during a merge in which every page extracts, the open log never
repeats a path (each document is opened at most once, so at most one
handle per distinct source is ever live), the cached handles are exactly
the opened ones, and a path is opened exactly once exactly when some
DocuWorks page reference draws on it. -/
theorem c8_handle_cached_per_path (env : MergeEnv) (entries : List PageEntry)
    (output_path : String) (comp : String)
    (hall : ∀ e ∈ entries, (rawFrame env e).isSome = true) :
    (create_merged_tiff env entries output_path comp).1.openLog.Nodup ∧
    (create_merged_tiff env entries output_path comp).1.openedDocs
      = (create_merged_tiff env entries output_path comp).1.openLog ∧
    ∀ p : SrcPath,
      List.count p (create_merged_tiff env entries output_path comp).1.openLog
        = if ∃ e ∈ entries, e.source_type = SourceType.docuworks ∧ e.source_path = p
          then 1 else 0 := by
  have hnodup := mergeLoop_nodup env comp entries 0 loopStart []
    (loopStart_no_handles env) hall rfl List.nodup_nil
  have hmem := (mergeLoop_success env comp entries 0 loopStart []
    (loopStart_no_handles env) hall).2.1
  have hopens := create_merged_tiff_opens env entries output_path comp
  refine ⟨?_, ?_, ?_⟩
  · rw [hopens.1]
    exact hnodup.2
  · rw [hopens.1, hopens.2]
    exact hnodup.1
  · intro p
    rw [hopens.1]
    by_cases hex : ∃ e ∈ entries, e.source_type = SourceType.docuworks ∧ e.source_path = p
    · rw [if_pos hex]
      have hp : p ∈ (mergeLoop env comp entries 0 loopStart []).1.openedDocs :=
        (hmem p).mpr (Or.inr hex)
      have hp' : p ∈ (mergeLoop env comp entries 0 loopStart []).1.openLog :=
        hnodup.1 ▸ hp
      exact List.count_eq_one_of_mem hnodup.2 hp'
    · rw [if_neg hex]
      refine List.count_eq_zero.mpr ?_
      intro hp
      have hp' : p ∈ (mergeLoop env comp entries 0 loopStart []).1.openedDocs := by
        rw [hnodup.1]
        exact hp
      rcases (hmem p).mp hp' with h | h
      · simp [loopStart, initMergeState] at h
      · exact hex h

/-- One loop iteration, successful or not, either leaves the handle cache
and open log unchanged or extends both with the one first-seen path. -/
theorem processEntry_opens (env : MergeEnv) (e : PageEntry) (order : Nat)
    (st : MergeState) :
    ((processEntry env e order st).1.openedDocs = st.openedDocs ∧
     (processEntry env e order st).1.openLog = st.openLog) ∨
    (e.source_path ∉ st.openedDocs ∧
     (processEntry env e order st).1.openedDocs = st.openedDocs ++ [e.source_path] ∧
     (processEntry env e order st).1.openLog = st.openLog ++ [e.source_path]) := by
  unfold processEntry
  cases e.source_type with
  | tiff => exact Or.inl ⟨rfl, rfl⟩
  | docuworks =>
    by_cases hmem : e.source_path ∈ st.openedDocs
    · rw [if_pos hmem]
      cases env.exportImage e.source_path e.page_index <;> exact Or.inl ⟨rfl, rfl⟩
    · rw [if_neg hmem]
      cases env.openDoc e.source_path with
      | error msg => exact Or.inl ⟨rfl, rfl⟩
      | ok u =>
        cases env.exportImage e.source_path e.page_index <;>
          exact Or.inr ⟨hmem, rfl, rfl⟩

/-- Whatever happens during the loop — including extraction failures —
the handle cache equals the open log and the open log stays
duplicate-free: the `xdw_docs` dict never opens a path twice. -/
theorem mergeLoop_opens_nodup (env : MergeEnv) (comp : String) :
    ∀ (entries : List PageEntry) (order : Nat) (st : MergeState) (acc : List Frame),
    st.openedDocs = st.openLog → st.openLog.Nodup →
    (mergeLoop env comp entries order st acc).1.openedDocs
      = (mergeLoop env comp entries order st acc).1.openLog ∧
    (mergeLoop env comp entries order st acc).1.openLog.Nodup := by
  intro entries
  induction entries with
  | nil =>
    intro order st acc hinv hnodup
    exact ⟨hinv, hnodup⟩
  | cons e rest ih =>
    intro order st acc hinv hnodup
    have hop := processEntry_opens env e order st
    cases hpe : processEntry env e order st with
    | mk st1 res =>
      rw [hpe] at hop
      have hinv1 : st1.openedDocs = st1.openLog := by
        rcases hop with ⟨h1, h2⟩ | ⟨hmem, h1, h2⟩
        · rw [h1, h2, hinv]
        · rw [h1, h2, hinv]
      have hnodup1 : st1.openLog.Nodup := by
        rcases hop with ⟨h1, h2⟩ | ⟨hmem, h1, h2⟩
        · rw [h2]; exact hnodup
        · rw [h2, List.nodup_append]
          refine ⟨hnodup, List.nodup_singleton _, ?_⟩
          intro q hq hq'
          rw [List.mem_singleton] at hq'
          rw [← hinv] at hq
          exact hmem (hq' ▸ hq)
      cases res with
      | error msg =>
        have hres : mergeLoop env comp (e :: rest) order st acc = (st1, Except.error msg) := by
          conv_lhs => unfold mergeLoop
          rw [hpe]
        rw [hres]
        exact ⟨hinv1, hnodup1⟩
      | ok f =>
        have hres : mergeLoop env comp (e :: rest) order st acc
            = mergeLoop env comp rest (order + 1) st1
                (acc ++ [if comp = "group4" then ensure_group4_mode env.convert1 f else f]) := by
          conv_lhs => unfold mergeLoop
          rw [hpe]
        rw [hres]
        exact ih (order + 1) st1 _ hinv1 hnodup1

/-- With no close failure, teardown appends exactly the cached handles to
the close log and leaves the cache itself untouched, in every branch of
`create_merged_tiff`. -/
theorem create_merged_tiff_closeLog_ok (env : MergeEnv) (entries : List PageEntry)
    (output_path : String) (comp : String)
    (hclose : ∀ p, env.closeFails p = false) :
    (create_merged_tiff env entries output_path comp).1.closeLog
      = (mergeLoop env comp entries 0 loopStart []).1.closeLog
        ++ (mergeLoop env comp entries 0 loopStart []).1.openedDocs ∧
    (create_merged_tiff env entries output_path comp).1.openedDocs
      = (mergeLoop env comp entries 0 loopStart []).1.openedDocs := by
  unfold create_merged_tiff
  dsimp only
  rw [closeAll_ok env _ _ (fun p _ => hclose p)]
  dsimp only
  repeat' split
  all_goals exact ⟨rfl, rfl⟩

/-- C2 amended: when no `close()` raises, merge-scope exit closes every
cached handle exactly once (the close log is exactly the duplicate-free
handle cache).  When a close raises, the code does NOT swallow it: see the
counterexample, where the error propagates and the remaining handle stays
open. -/
theorem c2_teardown_closes_each_handle_once (env : MergeEnv)
    (entries : List PageEntry) (output_path : String) (comp : String)
    (hclose : ∀ p, env.closeFails p = false) :
    (create_merged_tiff env entries output_path comp).1.closeLog
      = (create_merged_tiff env entries output_path comp).1.openedDocs ∧
    (create_merged_tiff env entries output_path comp).1.closeLog.Nodup := by
  have hcl := create_merged_tiff_closeLog_ok env entries output_path comp hclose
  have hpres := mergeLoop_preserves env comp entries 0 loopStart []
  have hnd := mergeLoop_opens_nodup env comp entries 0 loopStart [] rfl List.nodup_nil
  constructor
  · rw [hcl.1, hcl.2, hpres.1]
    simp [loopStart, initMergeState]
  · rw [hcl.1, hpres.1]
    have : (mergeLoop env comp entries 0 loopStart []).1.openedDocs.Nodup := by
      rw [hnd.1]
      exact hnd.2
    simpa [loopStart, initMergeState] using this

/-- Concrete DocuWorks source "a.xdw". -/
def pa : SrcPath := { stem := "a", ext := ".xdw" }

/-- Concrete DocuWorks source "b.xdw". -/
def pb : SrcPath := { stem := "b", ext := ".xdw" }

/-- Concrete TIFF source "scans.tif". -/
def pt : SrcPath := { stem := "scans", ext := ".tif" }

/-- Environment where everything succeeds except that closing the handle
of "a.xdw" raises. -/
def envC2 : MergeEnv :=
  { loadTiff := fun _ i => Except.ok { mode := "L", data := i },
    openDoc := fun _ => Except.ok (),
    exportImage := fun _ i => Except.ok { mode := "RGB", data := i + 10 },
    convert1 := fun f => { mode := "1", data := f.data },
    closeFails := fun p => p.stem = "a",
    saveFails := false }

/-- Two one-page DocuWorks references from two distinct sources. -/
def entriesC2 : List PageEntry :=
  [{ source_path := pa, page_index := 0, source_type := SourceType.docuworks },
   { source_path := pb, page_index := 0, source_type := SourceType.docuworks }]

/-- Counterexample to C2 as stated: both documents were opened, the close
of "a.xdw" raises, and the code neither swallows the error (the merge
result is that close error, masking an otherwise successful merge) nor
closes the remaining handle ("b.xdw" never reaches the close log). -/
theorem c2_counterexample :
    (create_merged_tiff envC2 entriesC2 "out.tif" "tiff_lzw").1.openedDocs = [pa, pb] ∧
    (create_merged_tiff envC2 entriesC2 "out.tif" "tiff_lzw").1.closeLog = [] ∧
    (create_merged_tiff envC2 entriesC2 "out.tif" "tiff_lzw").2
      = Except.error ("close failed: " ++ pa.name) := by
  refine ⟨by decide, by decide, ?_⟩
  rfl

/-- Environment where every call succeeds. -/
def envOk : MergeEnv :=
  { loadTiff := fun _ i => Except.ok { mode := "L", data := i },
    openDoc := fun _ => Except.ok (),
    exportImage := fun _ i => Except.ok { mode := "RGB", data := i + 10 },
    convert1 := fun f => { mode := "1", data := f.data },
    closeFails := fun _ => false,
    saveFails := false }

/-- Witness for the amended C2 at a concrete two-document merge. -/
theorem c2_teardown_closes_each_handle_once_witness :
    (∀ p, envOk.closeFails p = false) ∧
    ((create_merged_tiff envOk entriesC2 "out.tif" "tiff_lzw").1.closeLog
       = (create_merged_tiff envOk entriesC2 "out.tif" "tiff_lzw").1.openedDocs ∧
     (create_merged_tiff envOk entriesC2 "out.tif" "tiff_lzw").1.closeLog.Nodup) :=
  ⟨fun _ => rfl,
   c2_teardown_closes_each_handle_once envOk entriesC2 "out.tif" "tiff_lzw" (fun _ => rfl)⟩

/-- Environment whose TIFF reads raise (e.g. a stale page index). -/
def envFail : MergeEnv :=
  { loadTiff := fun _ _ => Except.error "page out of range",
    openDoc := fun _ => Except.ok (),
    exportImage := fun _ i => Except.ok { mode := "RGB", data := i },
    convert1 := fun f => { mode := "1", data := f.data },
    closeFails := fun _ => false,
    saveFails := false }

/-- A merge that opens one DocuWorks handle and then fails on a TIFF page. -/
def entriesC1 : List PageEntry :=
  [{ source_path := pa, page_index := 0, source_type := SourceType.docuworks },
   { source_path := pt, page_index := 7, source_type := SourceType.tiff }]

/-- Witness for C1 at a concrete merge that fails on its second page. -/
theorem c1_failed_merge_cleanup_witness :
    (∃ e ∈ entriesC1, rawFrame envFail e = none) ∧
    (∀ p, envFail.closeFails p = false) ∧
    ((∃ msg, (create_merged_tiff envFail entriesC1 "out.tif" "group4").2
        = Except.error msg) ∧
     (create_merged_tiff envFail entriesC1 "out.tif" "group4").1.outputFile = none ∧
     (create_merged_tiff envFail entriesC1 "out.tif" "group4").1.tempDirLive = false ∧
     (create_merged_tiff envFail entriesC1 "out.tif" "group4").1.tempFiles = [] ∧
     (create_merged_tiff envFail entriesC1 "out.tif" "group4").1.closeLog
       = (create_merged_tiff envFail entriesC1 "out.tif" "group4").1.openedDocs) :=
  ⟨by decide, fun _ => rfl,
   c1_failed_merge_cleanup envFail entriesC1 "out.tif" "group4" (by decide) (fun _ => rfl)⟩

/-- A mixed three-page merge: TIFF page, DocuWorks page, TIFF page. -/
def entriesMix : List PageEntry :=
  [{ source_path := pt, page_index := 0, source_type := SourceType.tiff },
   { source_path := pa, page_index := 1, source_type := SourceType.docuworks },
   { source_path := pt, page_index := 1, source_type := SourceType.tiff }]

/-- Witness for C4 at a concrete successful three-page merge. -/
theorem c4_merge_preserves_order_witness :
    entriesMix ≠ [] ∧
    (∀ e ∈ entriesMix, (rawFrame envOk e).isSome = true) ∧
    (∀ p, envOk.closeFails p = false) ∧
    envOk.saveFails = false ∧
    ((create_merged_tiff envOk entriesMix "out.tif" "group4").2
       = Except.ok (entriesMix.map (expectedFrame envOk "group4")) ∧
     (create_merged_tiff envOk entriesMix "out.tif" "group4").1.outputFile
       = some "out.tif" ∧
     (entriesMix.map (expectedFrame envOk "group4")).length = entriesMix.length) :=
  ⟨by decide, by decide, fun _ => rfl, rfl,
   c4_merge_preserves_order envOk entriesMix "out.tif" "group4"
     (by decide) (by decide) (fun _ => rfl) rfl⟩

/-- A merge drawing two pages from the same DocuWorks document. -/
def entriesC8 : List PageEntry :=
  [{ source_path := pa, page_index := 0, source_type := SourceType.docuworks },
   { source_path := pa, page_index := 1, source_type := SourceType.docuworks },
   { source_path := pt, page_index := 0, source_type := SourceType.tiff }]

/-- Witness for C8: the document contributing two pages is opened once. -/
theorem c8_handle_cached_per_path_witness :
    (∀ e ∈ entriesC8, (rawFrame envOk e).isSome = true) ∧
    ((create_merged_tiff envOk entriesC8 "out.tif" "group4").1.openLog.Nodup ∧
     (create_merged_tiff envOk entriesC8 "out.tif" "group4").1.openedDocs
       = (create_merged_tiff envOk entriesC8 "out.tif" "group4").1.openLog ∧
     ∀ p : SrcPath,
       List.count p (create_merged_tiff envOk entriesC8 "out.tif" "group4").1.openLog
         = if ∃ e ∈ entriesC8, e.source_type = SourceType.docuworks ∧ e.source_path = p
           then 1 else 0) :=
  ⟨by decide,
   c8_handle_cached_per_path envOk entriesC8 "out.tif" "group4" (by decide)⟩
